import Mathlib

/-!
Verification of the Docker Swarm service runner
(`airflow/providers/docker/operators/docker_swarm.py`, class `DockerSwarmOperator`).

The operator drives one ephemeral swarm service through creation, log
streaming, completion polling, result retrieval and removal.  The embedding
below models the operator's pure decision logic and its observable
interaction with the orchestrator client (`self.cli`) as explicit values:

* orchestrator interactions are recorded as a `List CliCall` trace;
* raised Python exceptions are modelled as `Except`/`Option` error results;
* the unbounded polling loops are observed along a finite list of
  orchestrator snapshots (one entry per poll iteration).
-/

/-- One backing task of a swarm service, as returned by `cli.tasks`:
the runner reads `task["Status"]["State"]` and
`task["Status"]["ContainerStatus"]["ContainerID"]`. -/
structure TaskRec where
  state : String
  containerId : String
deriving DecidableEq, Repr

/-- An orchestrator-client call made by the runner (`self.cli.…`). -/
inductive CliCall
  | tasksCall (sid : String)
  | inspectCall (cid : String)
  | removeCall (sid : String)
  | logsCall (sid : String)
  | copyCall (cid : String) (path : String)
deriving DecidableEq, Repr

/-- Errors raised by the runner: the `RuntimeError` precondition failure for a
missing service handle, a Python `IndexError` from `tasks[0]` on an empty task
list, an `AirflowException`, and the exceptions raised inside
`stream_new_logs` (regex mismatch / `strptime` failure). -/
inductive RunErr
  | precondition
  | indexError
  | airflow (msg : String)
  | parseError
deriving DecidableEq, Repr

/-- A Python value returned by `_run_service` / `_attempt_to_retrieve_results`:
`None`, a single file content, or a list of file contents. -/
inductive PyVal
  | pyNone
  | pyStr (s : String)
  | pyList (l : List String)
deriving DecidableEq, Repr

/-- `_has_service_terminated` (line 245): membership of the current task state
in the literal list `["complete", "failed", "shutdown", "rejected",
"orphaned", "remove"]`.  Modelled on the status string; the status itself is
obtained by `_service_status` (see `service_status`). -/
def has_service_terminated (status : String) : Bool :=
  ["complete", "failed", "shutdown", "rejected", "orphaned", "remove"].contains status

/-- The supported logging drivers checked in `__init__` (line 164). -/
def supported_logging_drivers : List String := ["json-file", "gelf"]

/-- The `log_driver_config` built in `__init__`: a `types.DriverConfig` from
the driver name and its options. -/
structure DriverConfig where
  name : String
  options : Option (List (String × String))
deriving DecidableEq, Repr

/-- The logging-driver validation of `DockerSwarmOperator.__init__`
(lines 162-171).  Python truthiness: `if self.logging_driver:` treats both
`None` and the empty string as absent.  The trace of orchestrator calls made
during construction is returned alongside (it is always empty: `__init__`
never touches `self.cli`). -/
def operatorInit (loggingDriver : Option String)
    (loggingDriverOpts : Option (List (String × String))) :
    List CliCall × Except RunErr (Option DriverConfig) :=
  match loggingDriver with
  | none => ([], .ok none)
  | some d =>
    if d = "" then ([], .ok none)
    else if supported_logging_drivers.contains d then
      ([], .ok (some ⟨d, loggingDriverOpts⟩))
    else
      ([], .error (.airflow (String.append
        (String.append "Invalid logging driver provided: " d)
        ". Must be one of: [json-file, gelf]")))

/-- `len(file_contents) == 1` dispatch at the end of
`_attempt_to_retrieve_results` (lines 297-299): a single harvested value is
returned bare, otherwise the whole list is returned. -/
def finishResults (acc : List String) : PyVal :=
  match acc with
  | [x] => PyVal.pyStr x
  | _ => PyVal.pyList acc

/-- The `for container in self.containers` loop of
`_attempt_to_retrieve_results` (lines 293-299): copy the output path out of
each container in order, accumulating file contents; an `APIError` raised by
any copy aborts the whole operation with `None` (line 300-301).  The trace
records each `_copy_from_docker` call, including the failing one. -/
def attempt_loop (copyFrom : String → String → Except Unit String)
    (path : String) : List String → List String → List CliCall × PyVal
  | [], acc => ([], finishResults acc)
  | c :: rest, acc =>
    match copyFrom c path with
    | .error _ => ([CliCall.copyCall c path], PyVal.pyNone)
    | .ok v =>
      let r := attempt_loop copyFrom path rest (acc ++ [v])
      (CliCall.copyCall c path :: r.1, r.2)

/-- `_attempt_to_retrieve_results` (lines 285-301), over the harvested
container ids. -/
def attempt_to_retrieve_results (copyFrom : String → String → Except Unit String)
    (path : String) (containers : List String) : List CliCall × PyVal :=
  attempt_loop copyFrom path containers []

/-- The three runtime shapes of the `args` parameter: `None`, a single
string, or a pre-split list. -/
inductive PyArgs
  | noneVal
  | strVal (s : String)
  | listVal (l : List String)
deriving DecidableEq, Repr

/-- States of the POSIX lexer underlying `shlex.split`. -/
inductive ShState
  | normal
  | single
  | double
  | escNormal
  | escDouble
deriving DecidableEq, Repr

/-- `shlex.whitespace`: the token separators of POSIX shell-word splitting. -/
def isShWhitespace (c : Char) : Bool :=
  c = ' ' ∨ c = '\t' ∨ c = '\r' ∨ c = '\n'

/-- Modelled from the Python standard library: the POSIX-mode state machine of
`shlex.split` (posix rules with whitespace splitting), which `format_args`
applies to a string argument.  `cur` is the token being built, `started`
records that a quote opened the token (so a quoted empty token is still
emitted), `acc` the tokens emitted so far.  Unterminated quotes and a trailing
escape raise `ValueError`, modelled as `.error`. -/
def shlexRun : List Char → ShState → List Char → Bool → List String →
    Except String (List String)
  | [], st, cur, started, acc =>
    match st with
    | .normal => if cur ≠ [] ∨ started then .ok (acc ++ [String.mk cur]) else .ok acc
    | .single => .error "No closing quotation"
    | .double => .error "No closing quotation"
    | .escNormal => .error "No escaped character"
    | .escDouble => .error "No escaped character"
  | c :: rest, .normal, cur, started, acc =>
    if isShWhitespace c then
      if cur ≠ [] ∨ started then shlexRun rest .normal [] false (acc ++ [String.mk cur])
      else shlexRun rest .normal [] false acc
    else if c = '\\' then shlexRun rest .escNormal cur started acc
    else if c = '\'' then shlexRun rest .single cur true acc
    else if c = '"' then shlexRun rest .double cur true acc
    else shlexRun rest .normal (cur ++ [c]) started acc
  | c :: rest, .single, cur, started, acc =>
    if c = '\'' then shlexRun rest .normal cur started acc
    else shlexRun rest .single (cur ++ [c]) started acc
  | c :: rest, .double, cur, started, acc =>
    if c = '"' then shlexRun rest .normal cur started acc
    else if c = '\\' then shlexRun rest .escDouble cur started acc
    else shlexRun rest .double (cur ++ [c]) started acc
  | c :: rest, .escNormal, cur, started, acc =>
    shlexRun rest .normal (cur ++ [c]) started acc
  | c :: rest, .escDouble, cur, started, acc =>
    if c = '\\' ∨ c = '"' then shlexRun rest .double (cur ++ [c]) started acc
    else shlexRun rest .double (cur ++ ['\\', c]) started acc

/-- `shlex.split` on one string (POSIX mode). -/
def shlexSplit (s : String) : Except String (List String) :=
  shlexRun s.toList .normal [] false []

/-- `DockerSwarmOperator.format_args` (lines 303-316): a string is split with
`shlex.split`, anything else (a list or `None`) is returned unchanged. -/
def format_args : PyArgs → Except String (Option (List String))
  | .strVal s => (shlexSplit s).map (fun l => some l)
  | .listVal l => .ok (some l)
  | .noneVal => .ok none

/-- The de-duplication step of `stream_new_logs` (lines 263-264):
`if last_line_logged in logs: logs = logs[logs.index(last_line_logged) + 1:]`.
`list.index` finds the first occurrence. -/
def dedupBatch (lastLine : String) (logs : List String) : List String :=
  if lastLine ∈ logs then logs.drop (logs.indexOf lastLine + 1) else logs

/-- The digit value of an ASCII digit character. -/
def charDigit (c : Char) : Nat := c.toNat - 48

/-- The numeric value of a string of ASCII digits. -/
def digitsToNat (l : List Char) : Nat := l.foldl (fun a c => 10 * a + charDigit c) 0

/-- `strptime`'s `%f` directive: 1 to 6 digits, right-padded to microseconds
(`"1"` parses as 100000 µs). -/
def microsOfDigits (l : List Char) : Nat := digitsToNat l * 10 ^ (6 - l.length)

/-- Length of a month, as validated by Python's `datetime` constructor. -/
def daysInMonth (y m : Nat) : Nat :=
  if m = 2 then (if (y % 4 = 0 ∧ y % 100 ≠ 0) ∨ y % 400 = 0 then 29 else 28)
  else if m = 4 ∨ m = 6 ∨ m = 9 ∨ m = 11 then 30
  else 31

/-- The result of `datetime.strptime` on a log timestamp; the runner's cursor
(`last_timestamp`) is this datetime (the further `.timestamp()` conversion to
epoch seconds is injective on it and not modelled). -/
structure SwarmDateTime where
  year : Nat
  month : Nat
  day : Nat
  hour : Nat
  minute : Nat
  second : Nat
  micro : Nat
deriving DecidableEq, Repr

/-- Check that list position `i` holds an ASCII digit. -/
def isDigitAt (l : List Char) (i : Nat) : Bool := (l.getD i ' ').isDigit

/-- Two-digit number read at list position `i`. -/
def twoDigitsAt (l : List Char) (i : Nat) : Nat :=
  charDigit (l.getD i '0') * 10 + charDigit (l.getD (i + 1) '0')

/-- The `"%Y-%m-%dT%H:%M:%S"` part of `datetime.strptime` on the fixed-width
timestamps produced by the log-line regex (`\d{4}-\d{2}-\d{2}T\d{2}:\d{2}:\d{2}`):
shape check, then the range checks performed by `strptime` and the `datetime`
constructor (month 1-12, calendar-valid day, hour ≤ 23, minute/second ≤ 59,
year ≥ 1). -/
def parseBase (l : List Char) : Option SwarmDateTime :=
  if l.length = 19
      ∧ (isDigitAt l 0 ∧ isDigitAt l 1 ∧ isDigitAt l 2 ∧ isDigitAt l 3)
      ∧ l.getD 4 ' ' = '-' ∧ (isDigitAt l 5 ∧ isDigitAt l 6)
      ∧ l.getD 7 ' ' = '-' ∧ (isDigitAt l 8 ∧ isDigitAt l 9)
      ∧ l.getD 10 ' ' = 'T' ∧ (isDigitAt l 11 ∧ isDigitAt l 12)
      ∧ l.getD 13 ' ' = ':' ∧ (isDigitAt l 14 ∧ isDigitAt l 15)
      ∧ l.getD 16 ' ' = ':' ∧ (isDigitAt l 17 ∧ isDigitAt l 18) then
    let y := charDigit (l.getD 0 '0') * 1000 + charDigit (l.getD 1 '0') * 100 +
      twoDigitsAt l 2
    let mo := twoDigitsAt l 5
    let d := twoDigitsAt l 8
    let h := twoDigitsAt l 11
    let mi := twoDigitsAt l 14
    let s := twoDigitsAt l 17
    if 1 ≤ y ∧ 1 ≤ mo ∧ mo ≤ 12 ∧ 1 ≤ d ∧ d ≤ daysInMonth y mo ∧ h ≤ 23 ∧
        mi ≤ 59 ∧ s ≤ 59 then
      some ⟨y, mo, d, h, mi, s, 0⟩
    else none
  else none

/-- `datetime.strptime(…, "%Y-%m-%dT%H:%M:%S.%fZ")` (line 277): base part,
literal dot, 1-6 fractional digits, literal `Z`, end of input.  More than six
fractional digits make the parse fail (`ValueError`), which is why the
preceding `re.sub` floors nanoseconds first. -/
def strptimeTs (l : List Char) : Option SwarmDateTime :=
  match parseBase (l.take 19) with
  | none => none
  | some b =>
    match l.drop 19 with
    | '.' :: rest =>
      let run := rest.takeWhile Char.isDigit
      if 1 ≤ run.length ∧ run.length ≤ 6 ∧ rest.drop run.length = ['Z'] then
        some { b with micro := microsOfDigits run }
      else none
    | _ => none

/-- One attempted match of `re.sub(r"(\.\d{6})\d+Z", r"\1Z", …)` at a dot:
the pattern matches when the dot is followed by at least seven digits and
then `Z`; the replacement keeps the first six digits.  Returns the kept
digits and the input remaining after the match. -/
def tryFloorAt (l : List Char) : Option (List Char × List Char) :=
  let run := l.takeWhile Char.isDigit
  if 7 ≤ run.length then
    match l.drop run.length with
    | 'Z' :: rest => some (run.take 6, rest)
    | _ => none
  else none

/-- Fuel-indexed scan of `re.sub(r"(\.\d{6})\d+Z", r"\1Z", …)` over the
timestamp string: walk left to right, rewriting every occurrence of the
pattern and resuming after the replaced region.  The fuel only bounds the
recursion; `floorNanos` supplies enough for the whole string. -/
def floorNanosAux : Nat → List Char → List Char
  | 0, l => l
  | _ + 1, [] => []
  | fuel + 1, c :: rest =>
    if c = '.' then
      match tryFloorAt rest with
      | some (six, remTail) => '.' :: (six ++ 'Z' :: floorNanosAux fuel remTail)
      | none => c :: floorNanosAux fuel rest
    else c :: floorNanosAux fuel rest

/-- The "Floor nanoseconds to microseconds" step of `stream_new_logs`
(line 276): `re.sub(r"(\.\d{6})\d+Z", r"\1Z", timestamp)`. -/
def floorNanos (l : List Char) : List Char := floorNanosAux l.length l

/-- The log-line regex of `stream_new_logs` (line 266):
`re.match(r"(\d{4}-\d{2}-\d{2}T\d{2}:\d{2}:\d{2}.\d{6,}Z) (.*)", line)`.
Positions 0-18 are the fixed-width date/time (the separators are literal, the
rest digits), position 19 is the regex's unescaped `.` (any character), then
a maximal run of at least six digits, a literal `Z`, a space, and the message
(`.*` stops at a newline).  Returns the timestamp group and the message
group. -/
def matchLogLine (line : String) : Option (String × String) :=
  let cs := line.toList
  if 20 ≤ cs.length
      ∧ (isDigitAt cs 0 ∧ isDigitAt cs 1 ∧ isDigitAt cs 2 ∧ isDigitAt cs 3)
      ∧ cs.getD 4 ' ' = '-' ∧ (isDigitAt cs 5 ∧ isDigitAt cs 6)
      ∧ cs.getD 7 ' ' = '-' ∧ (isDigitAt cs 8 ∧ isDigitAt cs 9)
      ∧ cs.getD 10 ' ' = 'T' ∧ (isDigitAt cs 11 ∧ isDigitAt cs 12)
      ∧ cs.getD 13 ' ' = ':' ∧ (isDigitAt cs 14 ∧ isDigitAt cs 15)
      ∧ cs.getD 16 ' ' = ':' ∧ (isDigitAt cs 17 ∧ isDigitAt cs 18) then
    let rest := cs.drop 20
    let run := rest.takeWhile Char.isDigit
    if 6 ≤ run.length then
      match rest.drop run.length with
      | 'Z' :: ' ' :: msg =>
        some (String.mk (cs.take (21 + run.length)),
          String.mk (msg.takeWhile (fun c => c ≠ '\n')))
      | _ => none
    else none
  else none

/-- The moving timestamp cursor of `_stream_logs_to_output`: initially `0`,
then the parsed timestamp of the last processed line. -/
inductive Cursor
  | epoch
  | time (dt : SwarmDateTime)
deriving DecidableEq, Repr

/-- One call of the inner `stream_new_logs` (lines 252-279), given the lines
fetched by `cli.service_logs`: de-duplicate against the previous last line,
emit each line's message, and — when lines remain — advance the last-line
marker to the final raw line and the cursor to its floored, re-parsed
timestamp.  A regex mismatch (`match.groups()` on `None`) or a `strptime`
failure raises, modelled as `none`; the emitted messages are returned as the
third component. -/
def streamNewLogs (lastLineLogged : String) (since : Cursor) (fetched : List String) :
    Option (String × Cursor × List String) :=
  let logs := dedupBatch lastLineLogged fetched
  match logs.getLast? with
  | none => some (lastLineLogged, since, [])
  | some lastL =>
    if logs.all (fun l => (matchLogLine l).isSome) then
      match matchLogLine lastL with
      | none => none
      | some (ts, _) =>
        match strptimeTs (floorNanos ts.toList) with
        | none => none
        | some dt =>
          some (lastL, Cursor.time dt,
            logs.filterMap (fun l => (matchLogLine l).map (fun p => p.2)))
    else none

/-- `_service_status` (lines 238-241): `RuntimeError` when the service handle
is not set, otherwise `cli.tasks(...)[0]["Status"]["State"]` — one `tasks`
call, an `IndexError` on an empty task list, and otherwise the state of the
first task.  `tasks` is the list the orchestrator currently reports for the
service. -/
def service_status (service : Option String) (tasks : List TaskRec) :
    List CliCall × Except RunErr String :=
  match service with
  | none => ([], .error .precondition)
  | some sid =>
    match tasks.head? with
    | none => ([CliCall.tasksCall sid], .error .indexError)
    | some t => ([CliCall.tasksCall sid], .ok t.state)

/-- The `while not self._has_service_terminated()` loop of
`_stream_logs_to_output` (lines 281-283), observed along a finite list of
poll snapshots (current task list, fetched log lines).  Each iteration checks
termination (a `tasks` call; the first task's state), then sleeps and streams
new logs (a `service_logs` call).  Exhausting the snapshots returns the
current loop state. -/
def streamLoop (sid : String) :
    String → Cursor → List (List TaskRec × List String) →
    List CliCall × Except RunErr (String × Cursor)
  | lastLine, cursor, [] => ([], .ok (lastLine, cursor))
  | lastLine, cursor, (tasks, fetched) :: rest =>
    match tasks.head? with
    | none => ([CliCall.tasksCall sid], .error .indexError)
    | some t =>
      if has_service_terminated t.state then
        ([CliCall.tasksCall sid], .ok (lastLine, cursor))
      else
        match streamNewLogs lastLine cursor fetched with
        | none => ([CliCall.tasksCall sid, CliCall.logsCall sid], .error .parseError)
        | some (l2, c2, _) =>
          let r := streamLoop sid l2 c2 rest
          (CliCall.tasksCall sid :: CliCall.logsCall sid :: r.1, r.2)

/-- `_stream_logs_to_output` (lines 247-283): `RuntimeError` before any
orchestrator call when the service handle is not set; otherwise the streaming
loop starting from an empty last line and cursor `0`. -/
def stream_logs_to_output (service : Option String)
    (polls : List (List TaskRec × List String)) :
    List CliCall × Except RunErr (String × Cursor) :=
  match service with
  | none => ([], .error .precondition)
  | some sid => streamLoop sid "" Cursor.epoch polls

/-- The tail of `_run_service` (lines 218-236), entered once the termination
polling loop has exited; `tasks` is the (stable) task list the orchestrator
reports for the terminated service.  In order:
line 218 checks the status (a `tasks` call) and, when it is `"complete"`,
harvests containers (a `tasks` call, then one `inspect_container` per task);
line 225 returns `_attempt_to_retrieve_results()` when `retrieve_output` is
set; line 229 re-checks the status (a `tasks` call) and, when it is not
`"complete"`, removes the service if `auto_remove == "force"` and raises
`AirflowException`; lines 233-236 remove the service when `auto_remove` is
`"success"` or `"force"`. -/
def runServicePost (sid : String) (tasks : List TaskRec) (retrieveOutput : Bool)
    (retrievePath : String) (autoRemove : String) (inspect : String → String)
    (copyFrom : String → String → Except Unit String) :
    List CliCall × Except RunErr PyVal :=
  match tasks.head? with
  | none => ([CliCall.tasksCall sid], .error .indexError)
  | some t0 =>
    let status := t0.state
    let harvest : List CliCall × List String :=
      if status = "complete" then
        (CliCall.tasksCall sid :: tasks.map (fun tk => CliCall.inspectCall tk.containerId),
          tasks.map (fun tk => inspect tk.containerId))
      else ([], [])
    let calls0 := CliCall.tasksCall sid :: harvest.1
    if retrieveOutput then
      let r := attempt_to_retrieve_results copyFrom retrievePath harvest.2
      (calls0 ++ r.1, .ok r.2)
    else
      let calls1 := calls0 ++ [CliCall.tasksCall sid]
      if status ≠ "complete" then
        if autoRemove = "force" then
          (calls1 ++ [CliCall.removeCall sid],
            .error (.airflow (String.append "Service did not complete: " sid)))
        else
          (calls1, .error (.airflow (String.append "Service did not complete: " sid)))
      else
        if ["success", "force"].contains autoRemove then
          (calls1 ++ [CliCall.removeCall sid], .ok PyVal.pyNone)
        else (calls1, .ok PyVal.pyNone)

/-- Whether a run outcome is the raised `AirflowException` task failure. -/
def isFailureRaised : Except RunErr PyVal → Bool
  | .error (.airflow _) => true
  | _ => false

/-! ## Supporting lemmas -/

lemma takeWhile_all_append (p : Char → Bool) (z : Char) (hz : p z = false)
    (l t : List Char) (hall : ∀ c ∈ l, p c = true) :
    (l ++ z :: t).takeWhile p = l := by
  induction l with
  | nil => simp [List.takeWhile_cons, hz]
  | cons a l ih =>
    have ha : p a = true := hall a (by simp)
    simp only [List.cons_append, List.takeWhile_cons, ha, if_true]
    rw [ih (fun c hc => hall c (by simp [hc]))]

lemma floorNanosAux_nodot :
    ∀ (pre t : List Char) (fuel : Nat), '.' ∉ pre → pre.length + t.length ≤ fuel →
      floorNanosAux fuel (pre ++ t) = pre ++ floorNanosAux (fuel - pre.length) t := by
  intro pre
  induction pre with
  | nil => intro t fuel _ _; simp
  | cons c pre ih =>
    intro t fuel hdot hfuel
    have hc : ¬ c = '.' := by
      intro e
      exact hdot (by simp [e])
    cases fuel with
    | zero => simp [List.length_cons] at hfuel
    | succ f =>
      have hf : pre.length + t.length ≤ f := by
        simp only [List.length_cons] at hfuel; omega
      have hdot2 : '.' ∉ pre := fun hm => hdot (List.mem_cons_of_mem _ hm)
      simp only [List.cons_append, floorNanosAux, hc, if_false, List.append_eq]
      rw [ih t f hdot2 hf]
      simp [List.length_cons, Nat.succ_sub_succ]

lemma floorNanosAux_dot (frac tail : List Char) (fuel : Nat)
    (hd : ∀ c ∈ frac, c.isDigit = true) (h7 : 7 ≤ frac.length) :
    floorNanosAux (fuel + 1) ('.' :: (frac ++ 'Z' :: tail)) =
      '.' :: (frac.take 6 ++ 'Z' :: floorNanosAux fuel tail) := by
  have hz : Char.isDigit 'Z' = false := by decide
  have htw : (frac ++ 'Z' :: tail).takeWhile Char.isDigit = frac :=
    takeWhile_all_append _ _ hz frac tail hd
  have hdrop : (frac ++ 'Z' :: tail).drop frac.length = 'Z' :: tail :=
    List.drop_left frac ('Z' :: tail)
  have htry : tryFloorAt (frac ++ 'Z' :: tail) = some (frac.take 6, tail) := by
    simp [tryFloorAt, htw, hdrop, h7]
  simp [floorNanosAux, htry]

lemma floorNanos_floored (pre frac : List Char)
    (hdot : '.' ∉ pre) (hd : ∀ c ∈ frac, c.isDigit = true) (h7 : 7 ≤ frac.length) :
    floorNanos (pre ++ '.' :: (frac ++ ['Z'])) = pre ++ '.' :: (frac.take 6 ++ ['Z']) := by
  unfold floorNanos
  rw [floorNanosAux_nodot pre ('.' :: (frac ++ ['Z'])) _ hdot (by simp)]
  have hlen : (pre ++ '.' :: (frac ++ ['Z'])).length - pre.length = (frac.length + 1) + 1 := by
    simp [List.length_append, List.length_cons]
  rw [hlen, floorNanosAux_dot frac [] (frac.length + 1) hd h7]
  simp [floorNanosAux]

lemma parseBase_length {l : List Char} {b : SwarmDateTime} (h : parseBase l = some b) :
    l.length = 19 := by
  unfold parseBase at h
  split at h
  · rename_i hcond
    exact hcond.1
  · cases h

lemma strptime_append (pre digits : List Char) (b : SwarmDateTime)
    (hb : parseBase pre = some b)
    (hd : ∀ c ∈ digits, c.isDigit = true)
    (h1 : 1 ≤ digits.length) (h6 : digits.length ≤ 6) :
    strptimeTs (pre ++ '.' :: (digits ++ ['Z'])) =
      some { b with micro := microsOfDigits digits } := by
  have hlen := parseBase_length hb
  have htake : (pre ++ '.' :: (digits ++ ['Z'])).take 19 = pre := by
    rw [← hlen]; exact List.take_left pre _
  have hdrop : (pre ++ '.' :: (digits ++ ['Z'])).drop 19 = '.' :: (digits ++ ['Z']) := by
    rw [← hlen]; exact List.drop_left pre _
  have htw : (digits ++ ['Z']).takeWhile Char.isDigit = digits :=
    takeWhile_all_append _ _ (by decide) digits [] hd
  have hdr : (digits ++ ['Z']).drop digits.length = ['Z'] := List.drop_left digits _
  unfold strptimeTs
  rw [htake, hdrop, hb]
  simp [htw, hdr, h1, h6]

lemma attempt_loop_all_ok (copyFrom : String → String → Except Unit String)
    (path : String) :
    ∀ (containers acc : List String),
      (∀ c ∈ containers, (copyFrom c path).isOk = true) →
      (attempt_loop copyFrom path containers acc).2 =
        finishResults (acc ++ containers.map (fun c => (copyFrom c path).toOption.getD "")) := by
  intro containers
  induction containers with
  | nil => intro acc _; simp [attempt_loop]
  | cons c rest ih =>
    intro acc hok
    have hc := hok c (by simp)
    cases hcp : copyFrom c path with
    | error e => rw [hcp] at hc; simp [Except.isOk, Except.toBool] at hc
    | ok v =>
      simp only [attempt_loop, hcp]
      rw [ih (acc ++ [v]) (fun x hx => hok x (by simp [hx]))]
      simp [hcp, Except.toOption]

lemma attempt_loop_err (copyFrom : String → String → Except Unit String)
    (path : String) :
    ∀ (containers acc : List String),
      ¬ (∀ c ∈ containers, (copyFrom c path).isOk = true) →
      (attempt_loop copyFrom path containers acc).2 = PyVal.pyNone := by
  intro containers
  induction containers with
  | nil => intro acc h; exact absurd (by simp) h
  | cons c rest ih =>
    intro acc h
    cases hcp : copyFrom c path with
    | error e => simp [attempt_loop, hcp]
    | ok v =>
      simp only [attempt_loop, hcp]
      apply ih
      intro hall
      apply h
      intro x hx
      rcases List.mem_cons.mp hx with h1 | h2
      · subst h1; simp [hcp, Except.isOk, Except.toBool]
      · exact hall x h2

lemma finishResults_of_one_lt {l : List String} (h : 1 < l.length) :
    finishResults l = PyVal.pyList l := by
  cases l with
  | nil => simp at h
  | cons x t =>
    cases t with
    | nil => simp at h
    | cons y r => rfl

lemma count_remove_map_inspect (sid : String) (l : List TaskRec) :
    (l.map (fun tk => CliCall.inspectCall tk.containerId)).count (CliCall.removeCall sid) = 0 := by
  rw [List.count_eq_zero]
  intro hm
  rcases List.mem_map.mp hm with ⟨tk, _, he⟩
  cases he

lemma count_remove_attempt_loop (sid : String)
    (copyFrom : String → String → Except Unit String) (path : String) :
    ∀ (containers acc : List String),
      ((attempt_loop copyFrom path containers acc).1).count (CliCall.removeCall sid) = 0 := by
  intro containers
  induction containers with
  | nil => intro acc; simp [attempt_loop]
  | cons c rest ih =>
    intro acc
    cases hcp : copyFrom c path with
    | error e => simp [attempt_loop, hcp]
    | ok v => simp [attempt_loop, hcp, List.count_cons, ih]

lemma streamLoop_no_precondition (sid : String) :
    ∀ (polls : List (List TaskRec × List String)) (lastLine : String) (cursor : Cursor),
      (streamLoop sid lastLine cursor polls).2 ≠ Except.error RunErr.precondition := by
  intro polls
  induction polls with
  | nil => intro l c; simp [streamLoop]
  | cons p rest ih =>
    intro l c
    obtain ⟨tasks, fetched⟩ := p
    cases ht : tasks.head? with
    | none => simp [streamLoop, ht]
    | some t =>
      by_cases hterm : has_service_terminated t.state
      · simp [streamLoop, ht, hterm]
      · cases hs : streamNewLogs l c fetched with
        | none => simp [streamLoop, ht, hterm, hs]
        | some r =>
          obtain ⟨l2, c2, em⟩ := r
          simp only [streamLoop, ht, hterm, hs, Bool.false_eq_true, if_false]
          exact ih l2 c2

/-! ## Claim theorems -/

/-- C2 (counterexample): the claim's terminal set names `"removed"`, but the
terminal-state check of `_has_service_terminated` returns `false` on
`"removed"` — the code's list contains the Docker task-state name `"remove"`
instead. -/
theorem terminal_check_rejects_removed :
    has_service_terminated "removed" = false
    ∧ has_service_terminated "remove" = true := by decide

/-- C2 (amended): the set of task states classified as terminal is exactly
`{"complete", "failed", "shutdown", "rejected", "orphaned", "remove"}`;
`"pending"` and `"running"` are never terminal. -/
theorem terminal_states_exact :
    (∀ s, has_service_terminated s = true ↔
      s ∈ ["complete", "failed", "shutdown", "rejected", "orphaned", "remove"])
    ∧ has_service_terminated "pending" = false
    ∧ has_service_terminated "running" = false := by
  refine ⟨fun s => ?_, by decide, by decide⟩
  simp [has_service_terminated]

/-- C3 (counterexample): the empty string is outside the supported
logging-driver set, yet construction succeeds — `if self.logging_driver:`
treats `""` as absent (Python truthiness), so no configuration error is
raised. -/
theorem init_empty_driver_accepted :
    supported_logging_drivers.contains "" = false
    ∧ operatorInit (some "") none = ([], .ok none) := ⟨by decide, rfl⟩

/-- C3 (amended): for every non-empty logging-driver value outside the
supported set, construction fails with a configuration error and makes no
orchestrator call; for a supported value, or an empty/absent one, construction
succeeds with no orchestrator call. -/
theorem operator_init_validates (opts : Option (List (String × String))) :
    (∀ d, d ≠ "" → supported_logging_drivers.contains d = false →
      operatorInit (some d) opts = ([], .error (.airflow (String.append
        (String.append "Invalid logging driver provided: " d)
        ". Must be one of: [json-file, gelf]"))))
    ∧ (∀ d, supported_logging_drivers.contains d = true →
      operatorInit (some d) opts = ([], .ok (some ⟨d, opts⟩)))
    ∧ operatorInit (some "") opts = ([], .ok none)
    ∧ operatorInit none opts = ([], .ok none) := by
  refine ⟨fun d hne hbad => ?_, fun d hgood => ?_, rfl, rfl⟩
  · have hbad2 : d ∉ supported_logging_drivers := by simpa using hbad
    simp [operatorInit, hne, hbad2]
  · have hne : ¬ d = "" := by
      intro e
      rw [e] at hgood
      exact absurd hgood (by decide)
    have hgood2 : d ∈ supported_logging_drivers := by simpa using hgood
    simp [operatorInit, hne, hgood2]

theorem operator_init_validates_witness :
    operatorInit (some "bogus") none = ([], .error (.airflow (String.append
      (String.append "Invalid logging driver provided: " "bogus")
      ". Must be one of: [json-file, gelf]")))
    ∧ operatorInit (some "json-file") none = ([], .ok (some ⟨"json-file", none⟩))
    ∧ operatorInit (some "") none = ([], .ok none)
    ∧ operatorInit none none = ([], .ok none) :=
  ⟨(operator_init_validates none).1 "bogus" (by decide) (by decide),
    (operator_init_validates none).2.1 "json-file" (by decide),
    (operator_init_validates none).2.2.1,
    (operator_init_validates none).2.2.2⟩

/-- C4: result retrieval returns the single copied value bare when exactly one
container was harvested, the ordered list of values when more than one was,
and `None` (without raising) whenever the orchestrator raises an `APIError`
during any copy. -/
theorem attempt_results_spec (copyFrom : String → String → Except Unit String)
    (path : String) (containers : List String) :
    ((∀ c ∈ containers, (copyFrom c path).isOk = true) →
      ((∀ c, containers = [c] →
        (attempt_to_retrieve_results copyFrom path containers).2 =
          PyVal.pyStr ((copyFrom c path).toOption.getD ""))
      ∧ (1 < containers.length →
        (attempt_to_retrieve_results copyFrom path containers).2 =
          PyVal.pyList (containers.map (fun c => (copyFrom c path).toOption.getD "")))))
    ∧ (¬ (∀ c ∈ containers, (copyFrom c path).isOk = true) →
      (attempt_to_retrieve_results copyFrom path containers).2 = PyVal.pyNone) := by
  constructor
  · intro hok
    constructor
    · intro c hc
      subst hc
      unfold attempt_to_retrieve_results
      rw [attempt_loop_all_ok copyFrom path [c] [] hok]
      simp [finishResults]
    · intro hlen
      unfold attempt_to_retrieve_results
      rw [attempt_loop_all_ok copyFrom path containers [] hok]
      rw [List.nil_append]
      exact finishResults_of_one_lt (by simpa using hlen)
  · intro hbad
    exact attempt_loop_err copyFrom path containers [] hbad

/-- The copy function used to witness C4: copying from container `"bad"`
raises an `APIError`, every other copy returns `"v" ++ id`. -/
def copyDemo (c : String) : String → Except Unit String := fun _ =>
  if c = "bad" then .error () else .ok (String.append "v" c)

theorem attempt_results_spec_witness :
    (attempt_to_retrieve_results copyDemo "/p" ["a"]).2 = PyVal.pyStr "va"
    ∧ (attempt_to_retrieve_results copyDemo "/p" ["a", "b"]).2 = PyVal.pyList ["va", "vb"]
    ∧ (attempt_to_retrieve_results copyDemo "/p" ["a", "bad"]).2 = PyVal.pyNone := by
  refine ⟨?_, ?_, ?_⟩
  · have h := ((attempt_results_spec copyDemo "/p" ["a"]).1 (by decide)).1 "a" rfl
    exact h.trans (by decide)
  · have h := ((attempt_results_spec copyDemo "/p" ["a", "b"]).1 (by decide)).2 (by decide)
    exact h.trans (by decide)
  · exact (attempt_results_spec copyDemo "/p" ["a", "bad"]).2 (by decide)

/-- C8: `format_args` splits a single string with POSIX shell-word rules
(`shlex.split`), passes a pre-split sequence through unchanged, and maps
`None` to `None`; splitting `"--flag value"` yields `["--flag", "value"]`. -/
theorem format_args_spec :
    (∀ s, format_args (PyArgs.strVal s) = (shlexSplit s).map (fun l => some l))
    ∧ (∀ l, format_args (PyArgs.listVal l) = .ok (some l))
    ∧ format_args PyArgs.noneVal = .ok none
    ∧ shlexSplit "--flag value" = .ok ["--flag", "value"] :=
  ⟨fun _ => rfl, fun _ => rfl, rfl, rfl⟩

/-- C6: when the last line emitted in the previous fetch occurs in the newly
fetched batch, everything up to and including its (first) occurrence is
discarded, only the remainder is emitted, and the discarded occurrence is
not re-emitted (the batch's count of that line drops by one). -/
theorem dedup_drops_through_last_line (lastLine : String) (fetched : List String)
    (h : lastLine ∈ fetched) :
    ∃ pre, fetched = pre ++ lastLine :: dedupBatch lastLine fetched
      ∧ lastLine ∉ pre
      ∧ (dedupBatch lastLine fetched).count lastLine + 1 = fetched.count lastLine := by
  induction fetched with
  | nil => cases h
  | cons x xs ih =>
    by_cases hx : x = lastLine
    · subst hx
      have hd : dedupBatch x (x :: xs) = xs := by
        simp [dedupBatch, List.indexOf_cons_self]
      refine ⟨[], ?_, by simp, ?_⟩
      · rw [hd]; simp
      · rw [hd]; simp [List.count_cons]
    · have hmem : lastLine ∈ xs := by
        rcases List.mem_cons.mp h with h1 | h2
        · exact absurd h1.symm hx
        · exact h2
      have hd : dedupBatch lastLine (x :: xs) = dedupBatch lastLine xs := by
        have hidx := List.indexOf_cons_ne xs hx
        simp only [dedupBatch, hmem, List.mem_cons, or_true, if_true, hidx]
        simp [List.drop_succ_cons]
      obtain ⟨pre, hsplit, hnot, hcount⟩ := ih hmem
      refine ⟨x :: pre, ?_, ?_, ?_⟩
      · rw [hd, List.cons_append]
        exact congrArg (x :: ·) hsplit
      · intro hm
        rcases List.mem_cons.mp hm with h1 | h2
        · exact hx h1.symm
        · exact hnot h2
      · rw [hd]
        have hcx : (x :: xs).count lastLine = xs.count lastLine := by
          simp [List.count_cons, hx]
        rw [hcx]
        exact hcount

theorem dedup_drops_through_last_line_witness :
    ∃ pre, ["log a", "log b", "log c"] =
        pre ++ "log b" :: dedupBatch "log b" ["log a", "log b", "log c"]
      ∧ "log b" ∉ pre
      ∧ (dedupBatch "log b" ["log a", "log b", "log c"]).count "log b" + 1 =
          (["log a", "log b", "log c"] : List String).count "log b" :=
  dedup_drops_through_last_line "log b" ["log a", "log b", "log c"] (by decide)

/-- C9: invoking the status check or log streaming while the service handle is
null raises the runtime precondition error before any orchestrator call
(empty trace); with a non-null handle, neither operation ever produces that
precondition error. -/
theorem precondition_fail_fast_spec (tasks : List TaskRec)
    (polls : List (List TaskRec × List String)) :
    service_status none tasks = ([], .error .precondition)
    ∧ stream_logs_to_output none polls = ([], .error .precondition)
    ∧ (∀ sid, (service_status (some sid) tasks).2 ≠ .error .precondition)
    ∧ (∀ sid, (stream_logs_to_output (some sid) polls).2 ≠ .error .precondition) := by
  refine ⟨rfl, rfl, fun sid => ?_, fun sid => ?_⟩
  · cases ht : tasks.head? with
    | none => simp [service_status, ht]
    | some t => simp [service_status, ht]
  · exact streamLoop_no_precondition sid polls "" Cursor.epoch

/-- C10: the polled status is exactly the state of the first task record, so
every decision taken from it — termination classification, removal calls,
raising the task failure — is unchanged when the other task records change. -/
theorem status_depends_on_first_task (sid : String) (t : TaskRec)
    (rest rest2 : List TaskRec) (retrieveOutput : Bool)
    (retrievePath autoRemove : String) (inspect : String → String)
    (copyFrom : String → String → Except Unit String) :
    service_status (some sid) (t :: rest) = service_status (some sid) (t :: rest2)
    ∧ (service_status (some sid) (t :: rest)).2 = .ok t.state
    ∧ (runServicePost sid (t :: rest) retrieveOutput retrievePath autoRemove
          inspect copyFrom).1.count (CliCall.removeCall sid) =
      (runServicePost sid (t :: rest2) retrieveOutput retrievePath autoRemove
          inspect copyFrom).1.count (CliCall.removeCall sid)
    ∧ isFailureRaised (runServicePost sid (t :: rest) retrieveOutput retrievePath
          autoRemove inspect copyFrom).2 =
      isFailureRaised (runServicePost sid (t :: rest2) retrieveOutput retrievePath
          autoRemove inspect copyFrom).2 := by
  refine ⟨rfl, rfl, ?_, ?_⟩
  · by_cases hc : t.state = "complete"
    · by_cases hr : retrieveOutput
      · simp [runServicePost, hc, hr, List.count_cons, List.count_append,
          count_remove_map_inspect, attempt_to_retrieve_results, count_remove_attempt_loop]
      · by_cases ha : autoRemove = "success" ∨ autoRemove = "force"
        · simp [runServicePost, hc, hr, ha, List.count_cons, List.count_append,
            count_remove_map_inspect]
        · simp [runServicePost, hc, hr, ha, List.count_cons, List.count_append,
            count_remove_map_inspect]
    · by_cases hr : retrieveOutput
      · simp [runServicePost, hc, hr, attempt_to_retrieve_results, List.count_cons,
          List.count_append, count_remove_attempt_loop]
      · by_cases ha : autoRemove = "force"
        · simp [runServicePost, hc, hr, ha, List.count_cons, List.count_append]
        · simp [runServicePost, hc, hr, ha, List.count_cons, List.count_append]
  · by_cases hc : t.state = "complete"
    · by_cases hr : retrieveOutput
      · simp [runServicePost, hc, hr, isFailureRaised]
      · by_cases ha : autoRemove = "success" ∨ autoRemove = "force"
        · simp [runServicePost, hc, hr, ha, isFailureRaised]
        · simp [runServicePost, hc, hr, ha, isFailureRaised]
    · by_cases hr : retrieveOutput
      · simp [runServicePost, hc, hr, isFailureRaised]
      · by_cases ha : autoRemove = "force"
        · simp [runServicePost, hc, hr, ha, isFailureRaised]
        · simp [runServicePost, hc, hr, ha, isFailureRaised]

/-- C1 (counterexample): a service that terminated in state `"failed"` (a
terminal, non-complete state) with auto-remove `"force"` but with result
retrieval requested: `_run_service` returns the retrieval result (line 226)
without calling `remove_service` and without raising the task-failure
error. -/
theorem run_service_retrieval_swallows_failure :
    has_service_terminated "failed" = true
    ∧ CliCall.removeCall "svc" ∉
        (runServicePost "svc" [⟨"failed", "c0"⟩] true "/p" "force" (fun c => c)
          (fun _ _ => .ok "v")).1
    ∧ (runServicePost "svc" [⟨"failed", "c0"⟩] true "/p" "force" (fun c => c)
        (fun _ _ => .ok "v")).2 = .ok (PyVal.pyList []) :=
  ⟨by decide, by decide, rfl⟩

/-- C1 (amended): when result retrieval is not requested and the service
terminated in a state other than `"complete"`, the runner raises the
task-failure `AirflowException`; with auto-remove `"force"` it first calls
`remove_service` exactly once, with any other policy it never calls it.
(When result retrieval is requested, the runner instead returns the retrieval
result without raising — see the counterexample.) -/
theorem run_service_failure_raises (sid : String) (tasks : List TaskRec)
    (t0 : TaskRec) (retrievePath autoRemove : String) (inspect : String → String)
    (copyFrom : String → String → Except Unit String)
    (h0 : tasks.head? = some t0)
    (_hterm : has_service_terminated t0.state = true)
    (hnc : t0.state ≠ "complete") :
    (runServicePost sid tasks false retrievePath autoRemove inspect copyFrom).2 =
      .error (.airflow (String.append "Service did not complete: " sid))
    ∧ (autoRemove = "force" →
        (runServicePost sid tasks false retrievePath autoRemove inspect
          copyFrom).1.count (CliCall.removeCall sid) = 1)
    ∧ (autoRemove ≠ "force" →
        CliCall.removeCall sid ∉
          (runServicePost sid tasks false retrievePath autoRemove inspect
            copyFrom).1) := by
  refine ⟨?_, fun hf => ?_, fun hf => ?_⟩
  · by_cases hf : autoRemove = "force"
    · simp [runServicePost, h0, hnc, hf]
    · simp [runServicePost, h0, hnc, hf]
  · simp [runServicePost, h0, hnc, hf, List.count_cons, List.count_append]
  · simp [runServicePost, h0, hnc, hf]

theorem run_service_failure_raises_witness :
    (runServicePost "svc" [⟨"failed", "c0"⟩] false "/p" "force" (fun c => c)
      (fun _ _ => .ok "v")).2 =
      .error (.airflow (String.append "Service did not complete: " "svc"))
    ∧ ("force" = "force" →
        (runServicePost "svc" [⟨"failed", "c0"⟩] false "/p" "force" (fun c => c)
          (fun _ _ => .ok "v")).1.count (CliCall.removeCall "svc") = 1)
    ∧ ("force" ≠ "force" →
        CliCall.removeCall "svc" ∉
          (runServicePost "svc" [⟨"failed", "c0"⟩] false "/p" "force" (fun c => c)
            (fun _ _ => .ok "v")).1) :=
  run_service_failure_raises "svc" [⟨"failed", "c0"⟩] ⟨"failed", "c0"⟩ "/p" "force"
    (fun c => c) (fun _ _ => .ok "v") rfl (by decide) (by decide)

/-- C5 (counterexample): a service that terminated in state `"complete"` with
auto-remove `"force"` but with result retrieval requested: `_run_service`
returns at line 226 before reaching the removal step, so `remove_service` is
never called. -/
theorem run_service_retrieval_skips_removal :
    CliCall.removeCall "svc" ∉
      (runServicePost "svc" [⟨"complete", "c0"⟩] true "/p" "force" (fun c => c)
        (fun _ _ => .ok "v")).1 := by decide

/-- C5 (amended): when result retrieval is not requested and the service
terminated in state `"complete"` with auto-remove `"success"` or `"force"`,
the runner calls `remove_service` exactly once, and the call comes after the
container harvest (the full trace is: status check, harvest `tasks` call, the
per-task `inspect_container` calls, the line-229 status check, then the
removal). -/
theorem run_service_complete_removes (sid : String) (tasks : List TaskRec)
    (t0 : TaskRec) (retrievePath autoRemove : String) (inspect : String → String)
    (copyFrom : String → String → Except Unit String)
    (h0 : tasks.head? = some t0)
    (hc : t0.state = "complete")
    (ha : autoRemove = "success" ∨ autoRemove = "force") :
    (runServicePost sid tasks false retrievePath autoRemove inspect copyFrom).1 =
      CliCall.tasksCall sid :: CliCall.tasksCall sid ::
        (tasks.map (fun tk => CliCall.inspectCall tk.containerId) ++
          [CliCall.tasksCall sid, CliCall.removeCall sid])
    ∧ (runServicePost sid tasks false retrievePath autoRemove inspect
        copyFrom).1.count (CliCall.removeCall sid) = 1
    ∧ (runServicePost sid tasks false retrievePath autoRemove inspect copyFrom).2 =
        .ok PyVal.pyNone := by
  refine ⟨?_, ?_, ?_⟩
  · simp [runServicePost, h0, hc, ha]
  · simp [runServicePost, h0, hc, ha, List.count_cons, List.count_append,
      count_remove_map_inspect]
  · simp [runServicePost, h0, hc, ha]

theorem run_service_complete_removes_witness :
    (runServicePost "svc" [⟨"complete", "c0"⟩] false "/p" "force" (fun c => c)
      (fun _ _ => .ok "v")).1 =
      CliCall.tasksCall "svc" :: CliCall.tasksCall "svc" ::
        (([⟨"complete", "c0"⟩] : List TaskRec).map
            (fun tk => CliCall.inspectCall tk.containerId) ++
          [CliCall.tasksCall "svc", CliCall.removeCall "svc"])
    ∧ (runServicePost "svc" [⟨"complete", "c0"⟩] false "/p" "force" (fun c => c)
        (fun _ _ => .ok "v")).1.count (CliCall.removeCall "svc") = 1
    ∧ (runServicePost "svc" [⟨"complete", "c0"⟩] false "/p" "force" (fun c => c)
        (fun _ _ => .ok "v")).2 = .ok PyVal.pyNone :=
  run_service_complete_removes "svc" [⟨"complete", "c0"⟩] ⟨"complete", "c0"⟩ "/p"
    "force" (fun c => c) (fun _ _ => .ok "v") rfl rfl (Or.inr rfl)

/-- C7: for a log-line timestamp with nine fractional-second digits before the
trailing `Z`, the cursor-advance step truncates it to exactly six fractional
digits (`re.sub`), the `strptime` parse then succeeds, and the cursor becomes
the (floored) timestamp of the last line processed. -/
theorem stream_cursor_floors_nanoseconds
    (lastLineLogged : String) (since : Cursor) (fetched : List String)
    (lastL tsStr msg : String) (pre frac : List Char) (b : SwarmDateTime)
    (hlast : (dedupBatch lastLineLogged fetched).getLast? = some lastL)
    (hall : (dedupBatch lastLineLogged fetched).all
      (fun l => (matchLogLine l).isSome) = true)
    (hmatch : matchLogLine lastL = some (tsStr, msg))
    (hts : tsStr.toList = pre ++ '.' :: (frac ++ ['Z']))
    (hdot : '.' ∉ pre)
    (hdig : ∀ c ∈ frac, c.isDigit = true)
    (hlen : frac.length = 9)
    (hbase : parseBase pre = some b) :
    floorNanos tsStr.toList = pre ++ '.' :: (frac.take 6 ++ ['Z'])
    ∧ (frac.take 6).length = 6
    ∧ strptimeTs (floorNanos tsStr.toList) =
        some { b with micro := microsOfDigits (frac.take 6) }
    ∧ streamNewLogs lastLineLogged since fetched =
        some (lastL, Cursor.time { b with micro := microsOfDigits (frac.take 6) },
          (dedupBatch lastLineLogged fetched).filterMap
            (fun l => (matchLogLine l).map (fun p => p.2))) := by
  have hfloor : floorNanos tsStr.toList = pre ++ '.' :: (frac.take 6 ++ ['Z']) := by
    rw [hts]
    exact floorNanos_floored pre frac hdot hdig (by omega)
  have htake6 : (frac.take 6).length = 6 := by
    simp [List.length_take, hlen]
  have hdig6 : ∀ c ∈ frac.take 6, c.isDigit = true := fun c hc =>
    hdig c (List.take_subset _ _ hc)
  have hstr : strptimeTs (floorNanos tsStr.toList) =
      some { b with micro := microsOfDigits (frac.take 6) } := by
    rw [hfloor]
    exact strptime_append pre (frac.take 6) b hbase hdig6 (by omega) (by omega)
  refine ⟨hfloor, htake6, hstr, ?_⟩
  simp only [streamNewLogs, hlast, hall, hmatch, hstr, if_true]

theorem stream_cursor_floors_nanoseconds_witness :
    floorNanos ("2021-07-05T14:13:12.123456789Z").toList =
      "2021-07-05T14:13:12".toList ++ '.' :: ("123456789".toList.take 6 ++ ['Z'])
    ∧ ("123456789".toList.take 6).length = 6
    ∧ strptimeTs (floorNanos ("2021-07-05T14:13:12.123456789Z").toList) =
        some ⟨2021, 7, 5, 14, 13, 12, microsOfDigits ("123456789".toList.take 6)⟩
    ∧ streamNewLogs "" Cursor.epoch ["2021-07-05T14:13:12.123456789Z hello"] =
        some ("2021-07-05T14:13:12.123456789Z hello",
          Cursor.time ⟨2021, 7, 5, 14, 13, 12, microsOfDigits ("123456789".toList.take 6)⟩,
          (dedupBatch "" ["2021-07-05T14:13:12.123456789Z hello"]).filterMap
            (fun l => (matchLogLine l).map (fun p => p.2))) :=
  stream_cursor_floors_nanoseconds "" Cursor.epoch
    ["2021-07-05T14:13:12.123456789Z hello"]
    "2021-07-05T14:13:12.123456789Z hello" "2021-07-05T14:13:12.123456789Z" "hello"
    "2021-07-05T14:13:12".toList "123456789".toList
    ⟨2021, 7, 5, 14, 13, 12, 0⟩
    (by decide) (by decide) (by decide) (by decide) (by decide) (by decide)
    (by decide) (by decide)
